import Mathlib

/-!
Shallow embedding of `functions/trajectories/nrLUT_3D_GRAPPA.py`: a 3D
GRAPPA-style undersampled k-space pattern generator and its LUT serializer.

The script builds a boolean mask over a `ky_dim × kz_dim` grid (a fully
sampled ACS rectangle plus a uniform stride lattice outside it), extracts
the centered coordinates of the true cells in row-major order, splits the
sample count into a signed-low/unsigned-high 16-bit pair, and writes one
decimal value per line.

Python floats are modelled exactly: every quantity the script rounds is a
half-integer (`m / 2` with `m` an integer), which binary floating point
represents exactly at these magnitudes, so `round` is the exact
round-half-to-even on half-integers.
-/

namespace NrLUT3DGrappa

/-- Python `round(m / 2)` for an integer `m`: round half to even
(banker's rounding), as used on the half-integer ACS bound expressions. -/
def roundHalfInt (m : ℤ) : ℤ :=
  if m % 2 = 0 then m / 2
  else if ((m - 1) / 2) % 2 = 0 then (m - 1) / 2 else (m - 1) / 2 + 1

/-- Lower ACS bound `y1 = round(cy - ACSdim[0]/2)` with `cy = (ky_dim + 1)/2`
(so the argument of `round` is `(ky_dim + 1 - acs)/2`); same formula for `z1`. -/
def acsLo (dim acs : ℤ) : ℤ := roundHalfInt (dim + 1 - acs)

/-- Upper ACS bound `y2 = round(cy + ACSdim[0]/2 - 1)` with `cy = (ky_dim + 1)/2`
(so the argument of `round` is `(ky_dim + acs - 1)/2`); same formula for `z2`. -/
def acsHi (dim acs : ℤ) : ℤ := roundHalfInt (dim + acs - 1)

/-- NumPy basic-slice boundary normalization for an axis of length `dim`:
a negative index is shifted by `dim`, then the result is clamped to `[0, dim]`. -/
def sliceIdx (dim : ℕ) (i : ℤ) : ℕ :=
  min (if i < 0 then i + dim else i).toNat dim

/-- The mask cell at 0-based position `(r, c)` after
`mask[y1-1:y2, z1-1:z2] = True` and the undersampling double loop:
the cell is true iff the slice assignment covered it, or the loop set it —
the loop skips cells with `z1 ≤ kz ≤ z2 and y1 ≤ ky ≤ y2` (1-based
`ky = r+1`, `kz = c+1`) and otherwise sets cells with
`(ky - y1) % Ry == 0 and (kz - z1) % Rz == 0`.  Comparing a Python `%`
to 0 is a divisibility test, which `Int.emod = 0` matches for every
nonzero modulus. -/
def grappaMask (ky_dim kz_dim : ℕ) (Ry Rz acs0 acs1 : ℤ) (r c : ℕ) : Bool :=
  let y1 := acsLo ky_dim acs0
  let y2 := acsHi ky_dim acs0
  let z1 := acsLo kz_dim acs1
  let z2 := acsHi kz_dim acs1
  let filled := decide (sliceIdx ky_dim (y1 - 1) ≤ r ∧ r < sliceIdx ky_dim y2 ∧
    sliceIdx kz_dim (z1 - 1) ≤ c ∧ c < sliceIdx kz_dim z2)
  let inACS := decide (y1 ≤ (r : ℤ) + 1 ∧ (r : ℤ) + 1 ≤ y2 ∧
    z1 ≤ (c : ℤ) + 1 ∧ (c : ℤ) + 1 ≤ z2)
  let stride := decide (((r : ℤ) + 1 - y1) % Ry = 0 ∧ ((c : ℤ) + 1 - z1) % Rz = 0)
  filled || (!inACS && stride)

/-- The coordinate-extraction loop: scan `ky` in `range(ky_dim)` (outer) and
`kz` in `range(kz_dim)` (inner), and for every true mask cell append
`[ky - ky_dim // 2, kz - kz_dim // 2]`. -/
def grappaSamples (ky_dim kz_dim : ℕ) (Ry Rz acs0 acs1 : ℤ) : List (ℤ × ℤ) :=
  (List.range ky_dim).flatMap fun ky =>
    ((List.range kz_dim).filter fun kz => grappaMask ky_dim kz_dim Ry Rz acs0 acs1 ky kz).map
      fun kz : ℕ => ((ky : ℤ) - ((ky_dim / 2 : ℕ) : ℤ), (kz : ℤ) - ((kz_dim / 2 : ℕ) : ℤ))

/-- The condition under which evaluating the loop body at 1-based `(ky, kz)`
raises in Python: the cell is not skipped, and either `Ry == 0` (first `%`
raises `ZeroDivisionError`) or the first residue test passes and `Rz == 0`
(`and` short-circuits, so the second `%` is only evaluated then). -/
def cellRaises (Ry Rz y1 y2 z1 z2 ky kz : ℤ) : Bool :=
  !decide (z1 ≤ kz ∧ kz ≤ z2 ∧ y1 ≤ ky ∧ ky ≤ y2) &&
    (decide (Ry = 0) || (decide ((ky - y1) % Ry = 0) && decide (Rz = 0)))

/-- Whether the double loop of `grappa3D_pattern` raises `ZeroDivisionError`
at some cell. -/
def grappaRaises (ky_dim kz_dim : ℕ) (Ry Rz acs0 acs1 : ℤ) : Bool :=
  let y1 := acsLo ky_dim acs0
  let y2 := acsHi ky_dim acs0
  let z1 := acsLo kz_dim acs1
  let z2 := acsHi kz_dim acs1
  (List.range kz_dim).any fun c => (List.range ky_dim).any fun r =>
    cellRaises Ry Rz y1 y2 z1 z2 ((r : ℤ) + 1) ((c : ℤ) + 1)

/-- The whole function `grappa3D_pattern(size_of_kspace, Ry, Rz, ACSdim)`.
It contains no validation and no `raise`; the only way it can fail is the
`ZeroDivisionError` from `% 0` inside the loop, in which case the exception
propagates; otherwise it returns the mask and the sample list. -/
def grappa3D_pattern (ky_dim kz_dim : ℕ) (Ry Rz acs0 acs1 : ℤ) :
    Except String ((ℕ → ℕ → Bool) × List (ℤ × ℤ)) :=
  if grappaRaises ky_dim kz_dim Ry Rz acs0 acs1 then
    Except.error "ZeroDivisionError"
  else
    Except.ok (grappaMask ky_dim kz_dim Ry Rz acs0 acs1,
      grappaSamples ky_dim kz_dim Ry Rz acs0 acs1)

/-- The split `split32to16(int32_value)`: `high16 = (v >> 16) & 0xFFFF`
(Python `>>` is a floor shift, `& 0xFFFF` is mod `2^16`),
`low16_unsigned = v & 0xFFFF`, then reinterpret the low half as signed
16-bit. -/
def split32to16 (int32_value : ℤ) : ℤ × ℤ :=
  let high16 := (Int.fdiv int32_value 65536) % 65536
  let low16_unsigned := int32_value % 65536
  let low16 := if low16_unsigned ≥ 2 ^ 15 then low16_unsigned - 2 ^ 16 else low16_unsigned
  (low16, high16)

/-- The LUT export loop: the lines written to the output file, in order.
`l16, h16 = split32to16(NE)` with `NE` the number of samples; each
`f.write(f"{v}\n")` contributes one newline-terminated decimal line. -/
def lutLines (samples : List (ℤ × ℤ)) : List String :=
  (toString (split32to16 samples.length).1 ++ "\n") ::
    (toString (split32to16 samples.length).2 ++ "\n") ::
      samples.flatMap fun s => [toString s.1 ++ "\n", toString s.2 ++ "\n"]

/-- Reference mask characterization, following the spec's words: a 1-based
cell `(ky, kz)` is true iff it lies inside the inclusive ACS rectangle
`[y1,y2] × [z1,z2]`, or it lies outside that rectangle and satisfies
`(ky - y1) mod Ry = 0` and `(kz - z1) mod Rz = 0`. -/
def specMask (Ry Rz y1 y2 z1 z2 ky kz : ℤ) : Bool :=
  decide (y1 ≤ ky ∧ ky ≤ y2 ∧ z1 ≤ kz ∧ kz ≤ z2) ||
    (!decide (y1 ≤ ky ∧ ky ≤ y2 ∧ z1 ≤ kz ∧ kz ≤ z2) &&
      decide ((ky - y1) % Ry = 0 ∧ (kz - z1) % Rz = 0))

/-- The true cells of a `d1 × d2` boolean grid, listed in row-major scan
order (first coordinate outer, second inner). -/
def trueCellsRM (d1 d2 : ℕ) (m : ℕ → ℕ → Bool) : List (ℕ × ℕ) :=
  (List.range d1).flatMap fun ky =>
    ((List.range d2).filter fun kz => m ky kz).map fun kz => (ky, kz)

/-! ### Helper lemmas -/

lemma sliceIdx_of_nonneg (d : ℕ) (i : ℤ) (h : 0 ≤ i) : sliceIdx d i = min i.toNat d := by
  simp only [sliceIdx, if_neg (by omega : ¬ i < 0)]

lemma roundHalfInt_mono {m n : ℤ} (h : m ≤ n) : roundHalfInt m ≤ roundHalfInt n := by
  unfold roundHalfInt
  split_ifs <;> omega

lemma acsLo_le_acsHi {d a : ℤ} (h : 1 ≤ a) : acsLo d a ≤ acsHi d a := by
  unfold acsLo acsHi
  exact roundHalfInt_mono (by omega)

lemma grappaSamples_eq_map (d1 d2 : ℕ) (Ry Rz a0 a1 : ℤ) :
    grappaSamples d1 d2 Ry Rz a0 a1 =
      (trueCellsRM d1 d2 (grappaMask d1 d2 Ry Rz a0 a1)).map
        (fun p => ((p.1 : ℤ) - (d1 / 2 : ℕ), (p.2 : ℤ) - (d2 / 2 : ℕ))) := by
  simp only [grappaSamples, trueCellsRM, List.map_flatMap, List.map_map]
  rfl

lemma mem_trueCellsRM {d1 d2 : ℕ} {m : ℕ → ℕ → Bool} {p : ℕ × ℕ} :
    p ∈ trueCellsRM d1 d2 m ↔ p.1 < d1 ∧ p.2 < d2 ∧ m p.1 p.2 = true := by
  obtain ⟨a, b⟩ := p
  simp only [trueCellsRM, List.mem_flatMap, List.mem_map, List.mem_filter, List.mem_range]
  constructor
  · rintro ⟨ky, hky, kz, ⟨hkz, hm⟩, heq⟩
    cases heq
    exact ⟨hky, hkz, hm⟩
  · rintro ⟨h1, h2, h3⟩
    exact ⟨a, h1, b, ⟨h2, h3⟩, rfl⟩

lemma trueCellsRM_pairwise (d1 d2 : ℕ) (m : ℕ → ℕ → Bool) :
    (trueCellsRM d1 d2 m).Pairwise
      (fun p q : ℕ × ℕ => p.1 < q.1 ∨ (p.1 = q.1 ∧ p.2 < q.2)) := by
  unfold trueCellsRM
  rw [List.pairwise_flatMap]
  constructor
  · intro a _
    refine List.Pairwise.map _ ?_ ((List.pairwise_lt_range d2).filter _)
    intro x y hxy
    exact Or.inr ⟨rfl, hxy⟩
  · refine (List.pairwise_lt_range d1).imp ?_
    intro a b hab x hx y hy
    obtain ⟨xa, _, rfl⟩ := List.mem_map.mp hx
    obtain ⟨yb, _, rfl⟩ := List.mem_map.mp hy
    exact Or.inl hab

lemma trueCellsRM_nodup (d1 d2 : ℕ) (m : ℕ → ℕ → Bool) : (trueCellsRM d1 d2 m).Nodup := by
  refine (trueCellsRM_pairwise d1 d2 m).imp ?_
  rintro ⟨a, b⟩ ⟨c, d⟩ (h | ⟨rfl, h⟩) <;> intro he <;>
    rw [Prod.mk.injEq] at he <;> omega

lemma trueCellsRM_length (d1 d2 : ℕ) (m : ℕ → ℕ → Bool) :
    (trueCellsRM d1 d2 m).length =
      ((Finset.range d1 ×ˢ Finset.range d2).filter fun p => m p.1 p.2 = true).card := by
  rw [← List.toFinset_card_of_nodup (trueCellsRM_nodup d1 d2 m)]
  congr 1
  ext p
  simp only [List.mem_toFinset, mem_trueCellsRM, Finset.mem_filter, Finset.mem_product,
    Finset.mem_range]
  tauto

lemma flatMapPair_length {α β : Type} (f g : α → β) (l : List α) :
    (l.flatMap fun s => [f s, g s]).length = 2 * l.length := by
  induction l with
  | nil => rfl
  | cons a t ih =>
    simp only [List.flatMap_cons, List.length_append, List.length_cons, ih, List.length_nil]
    omega

lemma flatMapPair_get_even {α β : Type} (f g : α → β) (l : List α) (i : ℕ) :
    (l.flatMap fun s => [f s, g s])[2 * i]? = l[i]?.map f := by
  induction l generalizing i with
  | nil => simp
  | cons a t ih =>
    cases i with
    | zero => simp
    | succ j =>
      rw [show 2 * (j + 1) = 2 * j + 1 + 1 by omega]
      simp only [List.flatMap_cons, List.cons_append, List.nil_append,
        List.getElem?_cons_succ, ih, List.getElem?_cons_succ]

lemma flatMapPair_get_odd {α β : Type} (f g : α → β) (l : List α) (i : ℕ) :
    (l.flatMap fun s => [f s, g s])[2 * i + 1]? = l[i]?.map g := by
  induction l generalizing i with
  | nil => simp
  | cons a t ih =>
    cases i with
    | zero => simp
    | succ j =>
      rw [show 2 * (j + 1) + 1 = 2 * j + 1 + 1 + 1 by omega]
      simp only [List.flatMap_cons, List.cons_append, List.nil_append,
        List.getElem?_cons_succ, ih]

/-! ### Claim theorems -/

/-- C1: for every valid input (positive grid and ACS sizes with
`acs ≤ grid`, `Ry, Rz ≥ 1`, and computed ACS bounds inside `[1, dim]`),
the mask produced by `grappa3D_pattern` agrees with the reference
characterization `specMask` at every cell: true inside the inclusive ACS
rectangle, true outside it exactly on the residue lattice anchored at
`(y1, z1)`, false elsewhere. -/
theorem C1_mask_matches_reference (d1 d2 : ℕ) (Ry Rz a0 a1 : ℤ)
    (hd1 : 0 < d1) (hd2 : 0 < d2) (ha0 : 0 < a0) (ha1 : 0 < a1)
    (ha0d : a0 ≤ (d1 : ℤ)) (ha1d : a1 ≤ (d2 : ℤ)) (hRy : 1 ≤ Ry) (hRz : 1 ≤ Rz)
    (hy1 : 1 ≤ acsLo d1 a0) (hy1d : acsLo d1 a0 ≤ (d1 : ℤ))
    (hy2 : 1 ≤ acsHi d1 a0) (hy2d : acsHi d1 a0 ≤ (d1 : ℤ))
    (hz1 : 1 ≤ acsLo d2 a1) (hz1d : acsLo d2 a1 ≤ (d2 : ℤ))
    (hz2 : 1 ≤ acsHi d2 a1) (hz2d : acsHi d2 a1 ≤ (d2 : ℤ))
    (r c : ℕ) :
    grappaMask d1 d2 Ry Rz a0 a1 r c =
      specMask Ry Rz (acsLo d1 a0) (acsHi d1 a0) (acsLo d2 a1) (acsHi d2 a1)
        ((r : ℤ) + 1) ((c : ℤ) + 1) := by
  simp only [grappaMask, specMask]
  congr 1
  rw [decide_eq_decide]
  rw [sliceIdx_of_nonneg _ _ (by omega), sliceIdx_of_nonneg _ _ (by omega),
    sliceIdx_of_nonneg _ _ (by omega), sliceIdx_of_nonneg _ _ (by omega)]
  omega

theorem C1_witness :
    grappaMask 8 8 2 2 4 4 0 0 =
      specMask 2 2 (acsLo 8 4) (acsHi 8 4) (acsLo 8 4) (acsHi 8 4) 1 1 :=
  C1_mask_matches_reference 8 8 2 2 4 4 (by decide) (by decide) (by decide) (by decide)
    (by decide) (by decide) (by decide) (by decide) (by decide) (by decide)
    (by decide) (by decide) (by decide) (by decide) (by decide) (by decide) 0 0

/-- C2: for every input, the sample list equals the row-major list of true
mask cells, each mapped to its centered pair
`(ky - ky_dim / 2, kz - kz_dim / 2)`; its length equals the number of true
mask cells; and it is strictly sorted in row-major (lexicographic) order. -/
theorem C2_samples_characterization (d1 d2 : ℕ) (Ry Rz a0 a1 : ℤ) :
    grappaSamples d1 d2 Ry Rz a0 a1 =
      (trueCellsRM d1 d2 (grappaMask d1 d2 Ry Rz a0 a1)).map
        (fun p => ((p.1 : ℤ) - ((d1 / 2 : ℕ) : ℤ), (p.2 : ℤ) - ((d2 / 2 : ℕ) : ℤ))) ∧
    (grappaSamples d1 d2 Ry Rz a0 a1).length =
      ((Finset.range d1 ×ˢ Finset.range d2).filter
        fun p => grappaMask d1 d2 Ry Rz a0 a1 p.1 p.2 = true).card ∧
    (grappaSamples d1 d2 Ry Rz a0 a1).Pairwise
      (fun p q : ℤ × ℤ => p.1 < q.1 ∨ (p.1 = q.1 ∧ p.2 < q.2)) := by
  refine ⟨grappaSamples_eq_map d1 d2 Ry Rz a0 a1, ?_, ?_⟩
  · rw [grappaSamples_eq_map, List.length_map, trueCellsRM_length]
  · rw [grappaSamples_eq_map]
    refine List.Pairwise.map _ ?_ (trueCellsRM_pairwise d1 d2 _)
    rintro ⟨a, b⟩ ⟨c, e⟩ (h | ⟨heq, h⟩)
    · exact Or.inl (by simp only []; omega)
    · exact Or.inr (by simp only []; constructor <;> omega)

/-- C3: for every count in `[0, 2^32)`, `high16 * 2^16 + (low16 mod 2^16)`
reconstructs the count exactly; in particular `split32to16 1313 = (1313, 0)`
and `split32to16 40000 = (-25536, 0)`. -/
theorem C3_split_roundtrip :
    (∀ v : ℤ, 0 ≤ v → v < 2 ^ 32 →
      (split32to16 v).2 * 2 ^ 16 + (split32to16 v).1 % 2 ^ 16 = v) ∧
    split32to16 1313 = (1313, 0) ∧ split32to16 40000 = (-25536, 0) := by
  refine ⟨?_, by decide, by decide⟩
  intro v h0 h32
  simp only [split32to16]
  rw [Int.fdiv_eq_ediv _ (by norm_num)]
  norm_num at h32 ⊢
  split_ifs <;> omega

theorem C3_witness :
    (0 : ℤ) ≤ 1313 ∧ (1313 : ℤ) < 2 ^ 32 ∧
      (split32to16 1313).2 * 2 ^ 16 + (split32to16 1313).1 % 2 ^ 16 = 1313 :=
  ⟨by norm_num, by norm_num, C3_split_roundtrip.1 1313 (by norm_num) (by norm_num)⟩

/-- C4 counterexample: for grid `(8,8)`, ACS `(4,4)`, `Ry = Rz = 2`, Python's
round-half-to-even gives ACS bounds `y1 = round(2.5) = 2`, `y2 = round(5.5) = 6`,
so the 1-based cell `(2, 3)` is true in the produced mask, while the claimed
characterization (ACS rectangle `[3..6]×[3..6]`, stride anchored at its corner)
makes that cell false. -/
theorem C4_counterexample :
    grappaMask 8 8 2 2 4 4 1 2 = true ∧ specMask 2 2 3 6 3 6 2 3 = false := by
  decide

/-- C4 amended: for grid `(8,8)`, ACS `(4,4)`, `Ry = Rz = 2`, the mask is
fully true exactly on the 1-based rectangle `[2..6]×[2..6]` (the ACS region
computed by round-half-to-even), and outside it exactly the cells in phase
with that rectangle's lower corner (even `ky` and even `kz`) are true. -/
theorem C4_amended_mask :
    ∀ r c : Fin 8, grappaMask 8 8 2 2 4 4 r c =
      specMask 2 2 2 6 2 6 ((r : ℕ) + 1 : ℤ) ((c : ℕ) + 1 : ℤ) := by
  decide

/-- C5: for every sample list, the serialized LUT output consists, in order,
of one line with `low16`, one line with `high16` (where
`(low16, high16) = split32to16(count)` and `count` is the list length), and
then for each sample in list order one line with `ky_centered` followed by
one line with `kz_centered`, each newline-terminated — `2 + 2*count` lines
in total. -/
theorem C5_lut_layout (samples : List (ℤ × ℤ)) :
    (lutLines samples).length = 2 + 2 * samples.length ∧
    (lutLines samples)[0]? =
      some (toString (split32to16 (samples.length : ℤ)).1 ++ "\n") ∧
    (lutLines samples)[1]? =
      some (toString (split32to16 (samples.length : ℤ)).2 ++ "\n") ∧
    (∀ i : ℕ, (lutLines samples)[2 + 2 * i]? =
      samples[i]?.map fun s => toString s.1 ++ "\n") ∧
    (∀ i : ℕ, (lutLines samples)[3 + 2 * i]? =
      samples[i]?.map fun s => toString s.2 ++ "\n") := by
  refine ⟨?_, by simp [lutLines], by simp [lutLines], ?_, ?_⟩
  · simp only [lutLines, List.length_cons, flatMapPair_length]
    omega
  · intro i
    rw [show 2 + 2 * i = 2 * i + 1 + 1 by omega]
    simp only [lutLines, List.getElem?_cons_succ]
    exact flatMapPair_get_even _ _ samples i
  · intro i
    rw [show 3 + 2 * i = 2 * i + 1 + 1 + 1 by omega]
    simp only [lutLines, List.getElem?_cons_succ]
    exact flatMapPair_get_odd _ _ samples i

/-- C6 counterexample: grid `(4,4)` with ACS `(6,6)` violates the
precondition `acs_size ≤ grid_size`, yet the pattern generator does not
fail: it performs no validation (the out-of-range ACS slice is silently
clamped by NumPy slicing), so no `InvalidParameter` error exists. -/
theorem C6_counterexample :
    ¬ ((6 : ℤ) ≤ (4 : ℤ)) ∧ (grappa3D_pattern 4 4 2 2 6 6).isOk = true := by
  decide

/-- C6 amended: the pattern generator performs no input validation and never
raises `InvalidParameter`; for every input with nonzero `Ry` and `Rz` (in
particular all `Ry, Rz ≥ 1`) it succeeds, even when the other preconditions
are violated.  The only possible failure is the `ZeroDivisionError` of
`% 0`, reachable only when `Ry = 0` or `Rz = 0`. -/
theorem C6_amended_no_validation (d1 d2 : ℕ) (Ry Rz a0 a1 : ℤ)
    (hRy : Ry ≠ 0) (hRz : Rz ≠ 0) :
    (grappa3D_pattern d1 d2 Ry Rz a0 a1).isOk = true := by
  have h : grappaRaises d1 d2 Ry Rz a0 a1 = false := by
    simp only [grappaRaises, List.any_eq_false, Bool.not_eq_true, cellRaises]
    intro c _ r _
    simp [hRy, hRz]
  simp [grappa3D_pattern, h, Except.isOk, Except.toBool]

theorem C6_witness : (grappa3D_pattern 128 128 2 2 25 25).isOk = true :=
  C6_amended_no_validation 128 128 2 2 25 25 (by decide) (by decide)

/-- C7 counterexample: the LUT encoding never fails.  At `count = 2^32`,
which the claim places outside the representable range and requires to fail
with `EncodingError`, `split32to16` succeeds and silently collides with
`count = 0`. -/
theorem C7_counterexample :
    split32to16 (2 ^ 32) = (0, 0) ∧ split32to16 (2 ^ 32) = split32to16 0 := by
  decide

/-- C7 amended: `split32to16` performs no range check and never fails; for
every count `≥ 0` it succeeds, and its output decodes to `count mod 2^32`
(counts in `[0, 2^32)` exactly, larger counts silently truncated). -/
theorem C7_amended_truncation (v : ℤ) (h : 0 ≤ v) :
    (split32to16 v).2 * 2 ^ 16 + (split32to16 v).1 % 2 ^ 16 = v % 2 ^ 32 := by
  simp only [split32to16]
  rw [Int.fdiv_eq_ediv _ (by norm_num)]
  norm_num
  split_ifs <;> omega

theorem C7_witness :
    (0 : ℤ) ≤ 2 ^ 32 ∧
      (split32to16 (2 ^ 32)).2 * 2 ^ 16 + (split32to16 (2 ^ 32)).1 % 2 ^ 16 =
        (2 ^ 32 : ℤ) % 2 ^ 32 :=
  ⟨by norm_num, C7_amended_truncation (2 ^ 32) (by norm_num)⟩

/-- C8: the pattern generator is deterministic and side-effect free: two
runs on identical inputs produce element-wise equal masks and identical
sample lists in the same order. -/
theorem C8_deterministic (d1 d2 : ℕ) (Ry Rz a0 a1 : ℤ) (d1' d2' : ℕ)
    (Ry' Rz' a0' a1' : ℤ) (h1 : d1 = d1') (h2 : d2 = d2') (h3 : Ry = Ry')
    (h4 : Rz = Rz') (h5 : a0 = a0') (h6 : a1 = a1') :
    (∀ r c : ℕ,
      grappaMask d1 d2 Ry Rz a0 a1 r c = grappaMask d1' d2' Ry' Rz' a0' a1' r c) ∧
      grappaSamples d1 d2 Ry Rz a0 a1 = grappaSamples d1' d2' Ry' Rz' a0' a1' := by
  subst h1 h2 h3 h4 h5 h6
  exact ⟨fun r c => rfl, rfl⟩

theorem C8_witness :
    grappaMask 8 8 2 2 4 4 0 0 = grappaMask 8 8 2 2 4 4 0 0 ∧
      grappaSamples 8 8 2 2 4 4 = grappaSamples 8 8 2 2 4 4 :=
  ⟨(C8_deterministic 8 8 2 2 4 4 8 8 2 2 4 4 rfl rfl rfl rfl rfl rfl).1 0 0,
    (C8_deterministic 8 8 2 2 4 4 8 8 2 2 4 4 rfl rfl rfl rfl rfl rfl).2⟩

/-- C9: for every valid input (positive ACS sizes with computed ACS bounds
inside the grid), the mask has at least one true cell and the sample list is
non-empty, so `mask.size / count_nonzero(mask)` and the per-axis min/max
reductions over the sample array are well-defined. -/
theorem C9_mask_nonempty (d1 d2 : ℕ) (Ry Rz a0 a1 : ℤ)
    (ha0 : 0 < a0) (ha1 : 0 < a1)
    (hy1 : 1 ≤ acsLo d1 a0) (hy2d : acsHi d1 a0 ≤ (d1 : ℤ))
    (hz1 : 1 ≤ acsLo d2 a1) (hz2d : acsHi d2 a1 ≤ (d2 : ℤ)) :
    0 < ((Finset.range d1 ×ˢ Finset.range d2).filter
        fun p => grappaMask d1 d2 Ry Rz a0 a1 p.1 p.2 = true).card ∧
      grappaSamples d1 d2 Ry Rz a0 a1 ≠ [] := by
  have hyy : acsLo d1 a0 ≤ acsHi d1 a0 := acsLo_le_acsHi (by omega)
  have hzz : acsLo d2 a1 ≤ acsHi d2 a1 := acsLo_le_acsHi (by omega)
  have hmask : grappaMask d1 d2 Ry Rz a0 a1
      (acsLo d1 a0 - 1).toNat (acsLo d2 a1 - 1).toNat = true := by
    simp only [grappaMask, Bool.or_eq_true, decide_eq_true_eq]
    left
    rw [sliceIdx_of_nonneg _ _ (by omega), sliceIdx_of_nonneg _ _ (by omega),
      sliceIdx_of_nonneg _ _ (by omega), sliceIdx_of_nonneg _ _ (by omega)]
    omega
  constructor
  · have hmem : ((acsLo d1 a0 - 1).toNat, (acsLo d2 a1 - 1).toNat) ∈
        (Finset.range d1 ×ˢ Finset.range d2).filter
          (fun p => grappaMask d1 d2 Ry Rz a0 a1 p.1 p.2 = true) := by
      refine Finset.mem_filter.mpr ⟨Finset.mk_mem_product ?_ ?_, ?_⟩
      · exact Finset.mem_range.mpr (by omega)
      · exact Finset.mem_range.mpr (by omega)
      · exact hmask
    exact Finset.card_pos.mpr ⟨_, hmem⟩
  · rw [grappaSamples_eq_map]
    simp only [ne_eq, List.map_eq_nil_iff]
    intro hnil
    have hm : ((acsLo d1 a0 - 1).toNat, (acsLo d2 a1 - 1).toNat) ∈
        trueCellsRM d1 d2 (grappaMask d1 d2 Ry Rz a0 a1) := by
      rw [mem_trueCellsRM]
      refine ⟨?_, ?_, hmask⟩
      · show (acsLo (d1 : ℤ) a0 - 1).toNat < d1
        omega
      · show (acsLo (d2 : ℤ) a1 - 1).toNat < d2
        omega
    rw [hnil] at hm
    simp at hm

theorem C9_witness :
    0 < ((Finset.range 8 ×ˢ Finset.range 8).filter
        fun p => grappaMask 8 8 2 2 4 4 p.1 p.2 = true).card ∧
      grappaSamples 8 8 2 2 4 4 ≠ [] :=
  C9_mask_nonempty 8 8 2 2 4 4 (by decide) (by decide) (by decide) (by decide)
    (by decide) (by decide)

/-- C10: every centered coordinate in the sample list is bounded by
`[-floor(dim/2), dim - 1 - floor(dim/2)]` on its axis; in particular, when
both grid dimensions are at most `2^15`, every coordinate written to the
LUT fits in a signed 16-bit integer. -/
theorem C10_coordinate_bounds (d1 d2 : ℕ) (Ry Rz a0 a1 : ℤ) (p : ℤ × ℤ)
    (hp : p ∈ grappaSamples d1 d2 Ry Rz a0 a1) :
    (-((d1 / 2 : ℕ) : ℤ) ≤ p.1 ∧ p.1 ≤ (d1 : ℤ) - 1 - ((d1 / 2 : ℕ) : ℤ) ∧
      -((d2 / 2 : ℕ) : ℤ) ≤ p.2 ∧ p.2 ≤ (d2 : ℤ) - 1 - ((d2 / 2 : ℕ) : ℤ)) ∧
    (d1 ≤ 2 ^ 15 → d2 ≤ 2 ^ 15 →
      -(2 ^ 15) ≤ p.1 ∧ p.1 ≤ 2 ^ 15 - 1 ∧ -(2 ^ 15) ≤ p.2 ∧ p.2 ≤ 2 ^ 15 - 1) := by
  rw [grappaSamples_eq_map] at hp
  obtain ⟨q, hq, rfl⟩ := List.mem_map.mp hp
  obtain ⟨h1, h2, _⟩ := mem_trueCellsRM.mp hq
  obtain ⟨a, b⟩ := q
  dsimp only at h1 h2 ⊢
  constructor
  · omega
  · intro hd1 hd2
    norm_num at hd1 hd2 ⊢
    omega

theorem C10_witness :
    ((-3 : ℤ), (-3 : ℤ)) ∈ grappaSamples 8 8 2 2 4 4 ∧
      (-(2 ^ 15) ≤ ((-3 : ℤ), (-3 : ℤ)).1 ∧ ((-3 : ℤ), (-3 : ℤ)).1 ≤ 2 ^ 15 - 1 ∧
        -(2 ^ 15) ≤ ((-3 : ℤ), (-3 : ℤ)).2 ∧ ((-3 : ℤ), (-3 : ℤ)).2 ≤ 2 ^ 15 - 1) :=
  have hm : ((-3 : ℤ), (-3 : ℤ)) ∈ grappaSamples 8 8 2 2 4 4 := by decide
  ⟨hm, (C10_coordinate_bounds 8 8 2 2 4 4 (-3, -3) hm).2 (by norm_num) (by norm_num)⟩

end NrLUT3DGrappa
